import Mathlib

/-!
# Verification of the interactive world engine core

A shallow embedding of the engine core of this repository
(`src/client/src/engine/...`): the spatial world model (Block, Entity,
Chunk), the WorldManager mutation operations, the StateManager undo/redo
history, and the isometric projection, together with theorems settling the
specified properties.

Modelling conventions:
* JavaScript `Map` objects are embedded as insertion-ordered association
  lists (`jsGet` / `jsSet` / `jsDelete` reproduce `Map.get` / `Map.set` /
  `Map.delete` semantics: `set` of an existing key updates in place, a new
  key is appended at the end).
* The string keys `"x,y,z"` of `chunk.blocks` are embedded as the integer
  triples they encode; chunk ids keep their string form
  `` `${worldId}_${chunkX}_${chunkY}` ``.
* `Date.now()` is an opaque wall-clock read; none of the verified
  properties depend on its value, so it is embedded as the constant
  `dateNow` (timestamps and version stamps are opaque tokens here).
* JavaScript numbers are embedded as `Int` where the source only ever
  holds integers (tile coordinates, layers) and as `ℚ` elsewhere
  (continuous positions, screen coordinates); `x || d` defaulting on
  numbers, strings and objects is embedded by the `jsOr*` helpers below,
  which are falsy exactly on `0`, `""` and `null`/`undefined`.
* A thrown JavaScript `Error` is embedded as `Except.error`; event-handler
  exceptions are swallowed at the `EventBus.emit` boundary, which the
  system-level `Sys.request*` functions reproduce.
-/

/-! ## JavaScript Map and defaulting primitives -/

/-- `Map.prototype.get`: the value stored under a key, if any. -/
def jsGet {α β : Type} [DecidableEq α] : List (α × β) → α → Option β
  | [], _ => none
  | (k', v) :: rest, k => if k' = k then some v else jsGet rest k

/-- `Map.prototype.set`: update in place if the key exists, else append. -/
def jsSet {α β : Type} [DecidableEq α] : List (α × β) → α → β → List (α × β)
  | [], k, v => [(k, v)]
  | (k', v') :: rest, k, v =>
      if k' = k then (k, v) :: rest else (k', v') :: jsSet rest k v

/-- `Map.prototype.delete`: remove the entry stored under a key. -/
def jsDelete {α β : Type} [DecidableEq α] : List (α × β) → α → List (α × β)
  | [], _ => []
  | (k', v') :: rest, k => if k' = k then rest else (k', v') :: jsDelete rest k

/-- `Set.prototype.add` on a string set embedded as a duplicate-free list. -/
def jsSetAdd (l : List String) (s : String) : List String :=
  if s ∈ l then l else l ++ [s]

/-- `o || d` for an optional string (`undefined` and `""` are falsy). -/
def jsOrString (o : Option String) (d : String) : String :=
  match o with
  | some s => if s = "" then d else s
  | none => d

/-- `o || null` for an optional string (normalises `""` to `null`). -/
def jsOrStringOpt (o : Option String) : Option String :=
  match o with
  | some s => if s = "" then none else some s
  | none => none

/-- `o || d` for an optional boolean. -/
def jsOrBool (o : Option Bool) (d : Bool) : Bool :=
  match o with
  | some b => b || d
  | none => d

/-- `o || d` for an optional number (`undefined` and `0` are falsy). -/
def jsOrRat (o : Option ℚ) (d : ℚ) : ℚ :=
  match o with
  | some q => if q = 0 then d else q
  | none => d

/-- `Date.now()`, embedded as an opaque constant: the verified properties
never depend on wall-clock values, only on the recorded fields being
deterministic. -/
def dateNow : Nat := 0

/-! ## Hex colour arithmetic (`ColorUtils.lighten`, inlined in
`WorldManager.placeBlock`) -/

/-- Value of one hex digit, as `parseInt` reads it. -/
def hexDigitVal (c : Char) : Nat :=
  if 48 ≤ c.toNat ∧ c.toNat ≤ 57 then c.toNat - 48
  else if 97 ≤ c.toNat ∧ c.toNat ≤ 102 then c.toNat - 87
  else if 65 ≤ c.toNat ∧ c.toNat ≤ 70 then c.toNat - 55
  else 0

/-- `parseInt(hex.substr(i, 2), 16)`. -/
def parseHexPair (s : String) (i : Nat) : Nat :=
  match s.toList.drop i with
  | c1 :: c2 :: _ => 16 * hexDigitVal c1 + hexDigitVal c2
  | [c1] => hexDigitVal c1
  | [] => 0

/-- `n.toString(16).padStart(2, '0')` for a channel value `n ≤ 255`. -/
def natToHex2 (n : Nat) : String :=
  let ds := Nat.toDigits 16 n
  String.mk (if ds.length < 2 then '0' :: ds else ds)

/-- `Math.min(255, Math.floor(v + (255 - v) * factor))` on one channel. -/
def lightenChannel (v : Nat) (factor : ℚ) : Nat :=
  min 255 (Int.toNat ⌊(v : ℚ) + (255 - (v : ℚ)) * factor⌋)

/-- The colour-lightening computation of `WorldManager.placeBlock` (and
`ColorUtils.lighten`): parse the `#rrggbb` string, lighten each channel,
re-format. `color.replace('#', '')` is embedded as dropping a leading
`#`. -/
def lightenHex (color : String) (factor : ℚ) : String :=
  let hex := if color.startsWith "#" then color.drop 1 else color
  let r := parseHexPair hex 0
  let g := parseHexPair hex 2
  let b := parseHexPair hex 4
  "#" ++ natToHex2 (lightenChannel r factor)
      ++ natToHex2 (lightenChannel g factor)
      ++ natToHex2 (lightenChannel b factor)

/-! ## GameConfig (`engine/config/GameConfig.js`) -/

/-- `GameConfig.block.defaultColor`. -/
def GameConfig.blockDefaultColor : String := "#00ff88"

/-- `GameConfig.block.defaultHeight`. -/
def GameConfig.blockDefaultHeight : ℚ := 2

/-- `GameConfig.block.defaultType`. -/
def GameConfig.blockDefaultType : String := "grass"

/-- `GameConfig.rendering.tileWidth` (also hard-coded in the older
renderer variant). -/
def GameConfig.tileWidth : ℚ := 64

/-- `GameConfig.rendering.tileHeight`. -/
def GameConfig.tileHeight : ℚ := 32

/-- `GameConfig.rendering.tileDepth`. -/
def GameConfig.tileDepth : ℚ := 20

/-! ## Block (`engine/world/Block.js`)

A `Block` carries the declared fields the constructor installs.  The
free-form `this.properties` bag is kept only through its one load-bearing
extra key, `properties.height` (written by `WorldManager.placeBlock`,
read by the renderer), embedded as `propsHeight`. -/

/-- The `properties` argument of the `Block` constructor; `none` is
JavaScript `undefined` (key absent). -/
structure BlockProps where
  spriteId : Option String
  color : Option String
  solid : Option Bool
  visible : Option Bool
  walkable : Option Bool
  interactable : Option Bool
  metadata : Option (List (String × String))
  height : Option ℚ
  deriving DecidableEq

/-- An all-`undefined` properties argument (`{}` in the source). -/
def BlockProps.empty : BlockProps :=
  { spriteId := none, color := none, solid := none, visible := none
  , walkable := none, interactable := none, metadata := none, height := none }

structure Block where
  x : Int
  y : Int
  z : Int
  type : String
  spriteId : Option String
  color : String
  solid : Bool
  visible : Bool
  walkable : Bool
  interactable : Bool
  metadata : List (String × String)
  propsHeight : Option ℚ
  deriving DecidableEq

/-- `Block.prototype.getDefaultColor`. -/
def Block.getDefaultColor (type : String) : String :=
  let colors : List (String × String) :=
    [ ("grass", "#00ff88"), ("stone", "#a0a0ff"), ("water", "#00ccff")
    , ("sand", "#ffd700"), ("dirt", "#8b4513"), ("wood", "#8b4513")
    , ("brick", "#cd5c5c"), ("metal", "#c0c0c0"), ("ice", "#e0ffff")
    , ("lava", "#ff4500") ]
  (jsGet colors type).getD "#808080"

/-- The `Block` constructor. -/
def Block.make (x y z : Int) (type : String) (props : BlockProps) : Block :=
  let solid := props.solid.getD true
  { x := x, y := y, z := z, type := type
  , spriteId := jsOrStringOpt props.spriteId
  , color := jsOrString props.color (Block.getDefaultColor type)
  , solid := solid
  , visible := props.visible.getD true
  , walkable := props.walkable.getD (!solid)
  , interactable := jsOrBool props.interactable false
  , metadata := props.metadata.getD []
  , propsHeight := props.height }

/-- `Block.prototype.clone`: re-runs the constructor on
`{...this.properties, spriteId, color, solid, visible, walkable,
interactable, metadata}` — the spread keeps `properties.height`. -/
def Block.clone (b : Block) : Block :=
  Block.make b.x b.y b.z b.type
    { spriteId := b.spriteId, color := some b.color, solid := some b.solid
    , visible := some b.visible, walkable := some b.walkable
    , interactable := some b.interactable, metadata := some b.metadata
    , height := b.propsHeight }

/-- Shape of `Block.toJSON()`'s `properties` object. -/
structure BlockPropsJson where
  spriteId : Option String
  color : String
  solid : Bool
  visible : Bool
  walkable : Bool
  interactable : Bool
  metadata : List (String × String)
  deriving DecidableEq

/-- Shape of `Block.toJSON()`. -/
structure BlockJson where
  x : Int
  y : Int
  z : Int
  type : String
  properties : BlockPropsJson
  deriving DecidableEq

/-- `Block.prototype.toJSON`. -/
def Block.toJSON (b : Block) : BlockJson :=
  { x := b.x, y := b.y, z := b.z, type := b.type
  , properties :=
    { spriteId := b.spriteId, color := b.color, solid := b.solid
    , visible := b.visible, walkable := b.walkable
    , interactable := b.interactable, metadata := b.metadata } }

/-- `Block.fromJSON`: the constructor applied to the serialized fields
(`json.properties` carries every serialized key, so each is passed as a
present value; the JSON has no `height` key). -/
def Block.fromJSON (j : BlockJson) : Block :=
  Block.make j.x j.y j.z j.type
    { spriteId := j.properties.spriteId, color := some j.properties.color
    , solid := some j.properties.solid, visible := some j.properties.visible
    , walkable := some j.properties.walkable
    , interactable := some j.properties.interactable
    , metadata := some j.properties.metadata, height := none }

/-- Fields the constructor normalises: every `Block` the program builds
satisfies this. -/
def Block.WF (b : Block) : Prop :=
  b.spriteId ≠ some "" ∧ b.color ≠ ""

instance (b : Block) : Decidable b.WF := by
  unfold Block.WF; infer_instance

/-! ## Entity (`engine/world/Entity.js`, recovered as `src/unnamed/part_006`) -/

structure Vec3 where
  x : ℚ
  y : ℚ
  z : ℚ
  deriving DecidableEq

/-- The `properties` argument of the `Entity` constructor. -/
structure EntityProps where
  spriteId : Option String
  color : Option String
  width : Option ℚ
  height : Option ℚ
  visible : Option Bool
  animated : Option Bool
  animationSpeed : Option ℚ
  solid : Option Bool
  interactable : Option Bool
  movable : Option Bool
  health : Option ℚ
  maxHealth : Option ℚ
  metadata : Option (List (String × String))
  deriving DecidableEq

/-- An all-`undefined` properties argument (`{}` in the source). -/
def EntityProps.empty : EntityProps :=
  { spriteId := none, color := none, width := none, height := none
  , visible := none, animated := none, animationSpeed := none, solid := none
  , interactable := none, movable := none, health := none, maxHealth := none
  , metadata := none }

/-- The declared fields the `Entity` constructor installs.  The free-form
`this.properties` bag is not modelled beyond its declared keys (no code
under verification reads another key from it). -/
structure Entity where
  id : String
  x : ℚ
  y : ℚ
  z : ℚ
  type : String
  spriteId : Option String
  color : String
  width : ℚ
  height : ℚ
  visible : Bool
  animated : Bool
  animationFrame : Nat
  animationSpeed : ℚ
  animationTime : ℚ
  solid : Bool
  interactable : Bool
  movable : Bool
  health : ℚ
  maxHealth : ℚ
  active : Bool
  metadata : List (String × String)
  velocity : Vec3
  acceleration : Vec3
  deriving DecidableEq

/-- `Entity.prototype.getDefaultColor`. -/
def Entity.getDefaultColor (type : String) : String :=
  let colors : List (String × String) :=
    [ ("player", "#ff00ff"), ("npc", "#00ff00"), ("enemy", "#ff0000")
    , ("chest", "#ffd700"), ("door", "#8b4513"), ("tree", "#228b22")
    , ("rock", "#696969"), ("crystal", "#00ffff"), ("portal", "#9370db")
    , ("item", "#ffff00") ]
  (jsGet colors type).getD "#ffffff"

/-- The `Entity` constructor. -/
def Entity.make (id : String) (x y z : ℚ) (type : String)
    (props : EntityProps) : Entity :=
  { id := id, x := x, y := y, z := z, type := type
  , spriteId := jsOrStringOpt props.spriteId
  , color := jsOrString props.color (Entity.getDefaultColor type)
  , width := jsOrRat props.width 1
  , height := jsOrRat props.height 1
  , visible := props.visible.getD true
  , animated := jsOrBool props.animated false
  , animationFrame := 0
  , animationSpeed := jsOrRat props.animationSpeed 100
  , animationTime := 0
  , solid := props.solid.getD true
  , interactable := props.interactable.getD true
  , movable := jsOrBool props.movable false
  , health := jsOrRat props.health 100
  , maxHealth := jsOrRat props.maxHealth 100
  , active := true
  , metadata := props.metadata.getD []
  , velocity := ⟨0, 0, 0⟩
  , acceleration := ⟨0, 0, 0⟩ }

/-- `Entity.prototype.takeDamage`. -/
def Entity.takeDamage (e : Entity) (damage : ℚ) : Entity :=
  let health := max 0 (e.health - damage)
  { e with health := health,
           active := if health = 0 then false else e.active }

/-- `Entity.prototype.heal`. -/
def Entity.heal (e : Entity) (amount : ℚ) : Entity :=
  { e with health := min e.maxHealth (e.health + amount) }

/-- Shape of `Entity.toJSON()`'s `properties` object. -/
structure EntityPropsJson where
  spriteId : Option String
  color : String
  width : ℚ
  height : ℚ
  visible : Bool
  animated : Bool
  animationSpeed : ℚ
  solid : Bool
  interactable : Bool
  movable : Bool
  health : ℚ
  maxHealth : ℚ
  metadata : List (String × String)
  deriving DecidableEq

/-- Shape of `Entity.toJSON()`'s `state` object. -/
structure EntityStateJson where
  active : Bool
  velocity : Vec3
  acceleration : Vec3
  animationFrame : Nat
  deriving DecidableEq

/-- Shape of `Entity.toJSON()`. -/
structure EntityJson where
  id : String
  x : ℚ
  y : ℚ
  z : ℚ
  type : String
  properties : EntityPropsJson
  state : EntityStateJson
  deriving DecidableEq

/-- `Entity.prototype.toJSON`. -/
def Entity.toJSON (e : Entity) : EntityJson :=
  { id := e.id, x := e.x, y := e.y, z := e.z, type := e.type
  , properties :=
    { spriteId := e.spriteId, color := e.color, width := e.width
    , height := e.height, visible := e.visible, animated := e.animated
    , animationSpeed := e.animationSpeed, solid := e.solid
    , interactable := e.interactable, movable := e.movable
    , health := e.health, maxHealth := e.maxHealth, metadata := e.metadata }
  , state :=
    { active := e.active, velocity := e.velocity
    , acceleration := e.acceleration, animationFrame := e.animationFrame } }

/-- `Entity.fromJSON`: the constructor applied to `json.properties`, then
the `json.state` overwrite (`state` is always present in serialized data,
and its `velocity`/`acceleration`/`animationFrame` fallbacks `|| ...` are
the identity on the values `toJSON` emits). -/
def Entity.fromJSON (j : EntityJson) : Entity :=
  let e := Entity.make j.id j.x j.y j.z j.type
    { spriteId := j.properties.spriteId, color := some j.properties.color
    , width := some j.properties.width, height := some j.properties.height
    , visible := some j.properties.visible
    , animated := some j.properties.animated
    , animationSpeed := some j.properties.animationSpeed
    , solid := some j.properties.solid
    , interactable := some j.properties.interactable
    , movable := some j.properties.movable
    , health := some j.properties.health
    , maxHealth := some j.properties.maxHealth
    , metadata := some j.properties.metadata }
  { e with active := j.state.active, velocity := j.state.velocity,
           acceleration := j.state.acceleration,
           animationFrame := j.state.animationFrame }

/-- Fields the constructor normalises: every `Entity` the program builds
satisfies this (nothing ever mutates these fields afterwards; `health` is
deliberately not here, `Entity.takeDamage` can zero it). -/
def Entity.WF (e : Entity) : Prop :=
  e.spriteId ≠ some "" ∧ e.color ≠ "" ∧ e.width ≠ 0 ∧ e.height ≠ 0 ∧
    e.animationSpeed ≠ 0 ∧ e.maxHealth ≠ 0

instance (e : Entity) : Decidable e.WF := by
  unfold Entity.WF; infer_instance

/-! ## Chunk (`engine/world/Chunk.js`)

Mutations on a chunk whose metadata marks it static throw
(`throw new Error(...)`), embedded as `Except.error`; the check runs
before any mutation, so an error always leaves the chunk unchanged. -/

/-- `Chunk.SIZE`. -/
def chunkSIZE : Int := 16

structure ChunkMetadata where
  createdAt : Nat
  modifiedAt : Nat
  static : Bool
  biome : String
  custom : List (String × String)
  deriving DecidableEq

structure Chunk where
  chunkX : Int
  chunkY : Int
  worldId : String
  id : String
  version : Nat
  blocks : List ((Int × Int × Int) × Block)
  entities : List (String × Entity)
  metadata : ChunkMetadata
  dirty : Bool
  deriving DecidableEq

/-- `` `${worldId}_${chunkX}_${chunkY}` ``. -/
def chunkIdFor (worldId : String) (chunkX chunkY : Int) : String :=
  worldId ++ "_" ++ toString chunkX ++ "_" ++ toString chunkY

/-- The `Chunk` constructor.  `bounds` is derived data
(`chunkX * SIZE ...`), recomputed where used instead of stored. -/
def Chunk.make (chunkX chunkY : Int) (worldId : String) : Chunk :=
  { chunkX := chunkX, chunkY := chunkY, worldId := worldId
  , id := chunkIdFor worldId chunkX chunkY
  , version := dateNow
  , blocks := []
  , entities := []
  , metadata :=
    { createdAt := dateNow, modifiedAt := dateNow, static := false
    , biome := "plains", custom := [] }
  , dirty := false }

/-- `bounds.minX`. -/
def Chunk.boundsMinX (c : Chunk) : Int := c.chunkX * chunkSIZE

/-- `bounds.minY`. -/
def Chunk.boundsMinY (c : Chunk) : Int := c.chunkY * chunkSIZE

/-- `Chunk.prototype.worldToLocal` (the positions handled here are
integral, so `Math.floor` is the identity). -/
def Chunk.worldToLocal (c : Chunk) (worldX worldY : Int) : Int × Int :=
  (worldX - c.boundsMinX, worldY - c.boundsMinY)

/-- `Chunk.prototype.localToWorld`. -/
def Chunk.localToWorld (c : Chunk) (localX localY : Int) : Int × Int :=
  (c.boundsMinX + localX, c.boundsMinY + localY)

/-- `Chunk.prototype.markDirty` (`Date.now()` stamps are the opaque
`dateNow`). -/
def Chunk.markDirty (c : Chunk) : Chunk :=
  { c with dirty := true,
           metadata := { c.metadata with modifiedAt := dateNow },
           version := dateNow }

/-- `Chunk.prototype.markClean`. -/
def Chunk.markClean (c : Chunk) : Chunk :=
  { c with dirty := false }

/-- `Chunk.prototype.getBlock` (local coordinates). -/
def Chunk.getBlock (c : Chunk) (x y z : Int) : Option Block :=
  jsGet c.blocks (x, y, z)

/-- `Chunk.prototype.setBlock`: throws on a static chunk; otherwise
overwrites the block's own coordinates with the arguments and stores it
under the key (a `none` block deletes the key, as `removeBlock` uses). -/
def Chunk.setBlock (c : Chunk) (x y z : Int) (block : Option Block)
    (markAsDirty : Bool) : Except String Chunk :=
  if c.metadata.static then
    Except.error ("Cannot modify static chunk " ++ c.id)
  else
    let c2 :=
      match block with
      | some b =>
          { c with blocks := jsSet c.blocks (x, y, z) { b with x := x, y := y, z := z } }
      | none => { c with blocks := jsDelete c.blocks (x, y, z) }
    Except.ok (if markAsDirty then c2.markDirty else c2)

/-- `Chunk.prototype.removeBlock` (`setBlock` with `null`, default
`markAsDirty`). -/
def Chunk.removeBlock (c : Chunk) (x y z : Int) : Except String Chunk :=
  c.setBlock x y z none true

/-- `Chunk.prototype.addEntity`: throws on a static chunk. -/
def Chunk.addEntity (c : Chunk) (entity : Entity) : Except String Chunk :=
  if c.metadata.static then
    Except.error ("Cannot modify static chunk " ++ c.id)
  else
    Except.ok ({ c with entities := jsSet c.entities entity.id entity }).markDirty

/-- `Chunk.prototype.removeEntity`: throws on a static chunk. -/
def Chunk.removeEntity (c : Chunk) (entityId : String) : Except String Chunk :=
  if c.metadata.static then
    Except.error ("Cannot modify static chunk " ++ c.id)
  else
    Except.ok ({ c with entities := jsDelete c.entities entityId }).markDirty

/-- `Chunk.prototype.getEntity`. -/
def Chunk.getEntity (c : Chunk) (entityId : String) : Option Entity :=
  jsGet c.entities entityId

/-- Shape of `Chunk.toJSON()`. -/
structure ChunkJson where
  id : String
  chunkX : Int
  chunkY : Int
  worldId : String
  version : Nat
  blocks : List BlockJson
  entities : List EntityJson
  metadata : ChunkMetadata
  deriving DecidableEq

/-- `Chunk.prototype.toJSON` (serialises map values in insertion
order). -/
def Chunk.toJSON (c : Chunk) : ChunkJson :=
  { id := c.id, chunkX := c.chunkX, chunkY := c.chunkY
  , worldId := c.worldId, version := c.version
  , blocks := c.blocks.map (fun p => p.2.toJSON)
  , entities := c.entities.map (fun p => p.2.toJSON)
  , metadata := c.metadata }

/-- `Chunk.fromJSON`: rebuild the chunk, rebuilding every block key from
the deserialized block's own coordinates and every entity key from its
id, then `markClean`. -/
def Chunk.fromJSON (j : ChunkJson) : Chunk :=
  let c := Chunk.make j.chunkX j.chunkY j.worldId
  let c := { c with id := j.id, version := j.version, metadata := j.metadata }
  let blocks := j.blocks.foldl
    (fun m bj =>
      let b := Block.fromJSON bj
      jsSet m (b.x, b.y, b.z) b) []
  let entities := j.entities.foldl
    (fun m ej =>
      let e := Entity.fromJSON ej
      jsSet m e.id e) []
  ({ c with blocks := blocks, entities := entities }).markClean

/-- The key-to-coordinate correspondence of `chunk.blocks`: every entry
stored under key `(x, y, z)` is a block whose own coordinate fields equal
the key components. -/
def Chunk.KeyInv (c : Chunk) : Prop :=
  ∀ p ∈ c.blocks, p.2.x = p.1.1 ∧ p.2.y = p.1.2.1 ∧ p.2.z = p.1.2.2

instance (c : Chunk) : Decidable c.KeyInv := by
  unfold Chunk.KeyInv; infer_instance

/-- What holds of every chunk the program builds, as far as
serialization is concerned: constructor-normalised blocks and entities,
keys matching block coordinates resp. entity ids, no duplicate keys (the
maps), and — for the entity `health` round trip — no entity at zero
health. -/
def Chunk.SerWF (c : Chunk) : Prop :=
  (∀ p ∈ c.blocks, p.2.WF ∧ p.2.x = p.1.1 ∧ p.2.y = p.1.2.1 ∧ p.2.z = p.1.2.2) ∧
  (c.blocks.map Prod.fst).Nodup ∧
  (∀ p ∈ c.entities, p.2.WF ∧ p.2.health ≠ 0 ∧ p.2.id = p.1) ∧
  (c.entities.map Prod.fst).Nodup

instance (c : Chunk) : Decidable c.SerWF := by
  unfold Chunk.SerWF; infer_instance

/-! ## WorldManager (`engine/world/WorldManager.js`)

The manager's chunk state is the `World` structure; every mutation
returns `Except` (a static-chunk mutation throws inside) paired with the
`block:added` / `block:removed` event payload it emits, `none` when the
operation was a warned no-op. -/

structure World where
  worldId : String
  chunks : List (String × Chunk)
  activeChunks : List String
  viewX : ℚ
  viewY : ℚ
  globalEntities : List (String × Entity)
  deriving DecidableEq

/-- Payload of `block:added` / `block:removed` events (`chunkId` of
`block:changed` is omitted: no handler under verification reads it). -/
structure BlockEvent where
  block : Block
  worldX : Int
  worldY : Int
  z : Int
  deriving DecidableEq

/-- `WorldManager.createWorld` followed by `createInitialContent`: reset
all chunk/entity state and install one empty chunk at the origin. -/
def World.createWorld (worldId : String) (centerX centerY : ℚ) : World :=
  let chunk := Chunk.make 0 0 worldId
  { worldId := worldId
  , chunks := [(chunk.id, chunk)]
  , activeChunks := [chunk.id]
  , viewX := centerX
  , viewY := centerY
  , globalEntities := [] }

/-- `WorldManager.getChunkAt` with `createIfMissing` left at its default
(no mutation): `Math.floor(worldX / Chunk.SIZE)` on integral positions is
floor division. -/
def World.getChunkAt (w : World) (worldX worldY : Int) : Option Chunk :=
  let chunkX := Int.fdiv worldX chunkSIZE
  let chunkY := Int.fdiv worldY chunkSIZE
  jsGet w.chunks (chunkIdFor w.worldId chunkX chunkY)

/-- `WorldManager.getChunkAt` with `createIfMissing = true`: auto-creates
and registers the chunk when absent, so it also returns the updated
world. -/
def World.getChunkAtCreate (w : World) (worldX worldY : Int) : World × Chunk :=
  let chunkX := Int.fdiv worldX chunkSIZE
  let chunkY := Int.fdiv worldY chunkSIZE
  let chunkId := chunkIdFor w.worldId chunkX chunkY
  match jsGet w.chunks chunkId with
  | some chunk => (w, chunk)
  | none =>
      let chunk := Chunk.make chunkX chunkY w.worldId
      ({ w with chunks := jsSet w.chunks chunkId chunk,
                activeChunks := jsSetAdd w.activeChunks chunkId }, chunk)

/-- `WorldManager.getBlockAt`. -/
def World.getBlockAt (w : World) (worldX worldY z : Int) : Option Block :=
  match w.getChunkAt worldX worldY with
  | none => none
  | some chunk =>
      let l := chunk.worldToLocal worldX worldY
      chunk.getBlock l.1 l.2 z

/-- `WorldManager.getHighestBlockZ`: scan all block keys of the addressed
chunk for the maximal `z` at the local column, `-1` when empty. -/
def World.getHighestBlockZ (w : World) (worldX worldY : Int) : Int :=
  match w.getChunkAt worldX worldY with
  | none => -1
  | some chunk =>
      let l := chunk.worldToLocal worldX worldY
      chunk.blocks.foldl
        (fun highestZ p =>
          if p.1.1 = l.1 ∧ p.1.2.1 = l.2 ∧ p.1.2.2 > highestZ
          then p.1.2.2 else highestZ)
        (-1)

/-- `WorldManager.setBlockAt`: auto-create the chunk, store the block
under local coordinates (this mutates the block's own coordinate fields),
re-register the updated chunk; also returns the stored block (the object
the callers' `block:added` events carry).  The source's `if (!chunk)`
error branch is dead (`createIfMissing` always yields a chunk); the
`block:changed` event has no consumer under verification. -/
def World.setBlockAt (w : World) (worldX worldY z : Int) (block : Block) :
    Except String (World × Block) :=
  let wc := w.getChunkAtCreate worldX worldY
  let chunk := wc.2
  let l := chunk.worldToLocal worldX worldY
  match chunk.setBlock l.1 l.2 z (some block) true with
  | Except.error e => Except.error e
  | Except.ok chunk2 =>
      Except.ok
        ({ wc.1 with chunks := jsSet wc.1.chunks chunk2.id chunk2 },
         { block with x := l.1, y := l.2, z := z })

/-- `WorldManager.placeBlock`: no-op (with a warning) if the exact target
cell is occupied; otherwise build a default block — colour lightened for
`z > 0` — and place it, emitting `block:added`. -/
def World.placeBlock (w : World) (x y z : Int) :
    Except String (World × Option BlockEvent) :=
  if (w.getBlockAt x y z).isSome then
    Except.ok (w, none)
  else
    let blockColor :=
      if z > 0 then
        lightenHex GameConfig.blockDefaultColor
          (min (1/10 + (z : ℚ) * (5/100)) (3/10))
      else GameConfig.blockDefaultColor
    let block := Block.make x y z GameConfig.blockDefaultType
      { BlockProps.empty with color := some blockColor,
                              height := some GameConfig.blockDefaultHeight }
    match w.setBlockAt x y z block with
    | Except.error e => Except.error e
    | Except.ok (w2, stored) =>
        Except.ok (w2, some ⟨stored, x, y, z⟩)

/-- `WorldManager.placeBlock` with the `z` argument omitted: the
JavaScript default is `z = 0`, and the caller-facing effect of a thrown
error (swallowed at the event-bus boundary before any mutation) is an
unchanged world. -/
def World.placeBlockDefaultZ (w : World) (x y : Int) : World :=
  match w.placeBlock x y 0 with
  | Except.ok (w2, _) => w2
  | Except.error _ => w

/-- N calls of `placeBlock(x, y)` with `z` omitted. -/
def World.placeBlockIter (w : World) (x y : Int) : Nat → World
  | 0 => w
  | n + 1 => ((w.placeBlockIter x y n).placeBlockDefaultZ x y)

/-- `WorldManager.placeBlockExact`: clone the template block, force its
coordinates, place it (the emitted `block:added` carries the stored,
local-coordinate object). -/
def World.placeBlockExact (w : World) (x y z : Int) (block : Block) :
    Except String (World × Option BlockEvent) :=
  if (w.getBlockAt x y z).isSome then
    Except.ok (w, none)
  else
    let newBlock := { block.clone with x := x, y := y, z := z }
    match w.setBlockAt x y z newBlock with
    | Except.error e => Except.error e
    | Except.ok (w2, stored) =>
        Except.ok (w2, some ⟨stored, x, y, z⟩)

/-- `WorldManager.removeBlock`: no-op (with a warning) when no block is
at the position; otherwise delete it from its chunk and emit
`block:removed` (the source emits even in the dead no-chunk case, kept
here). -/
def World.removeBlock (w : World) (x y z : Int) :
    Except String (World × Option BlockEvent) :=
  match w.getBlockAt x y z with
  | none => Except.ok (w, none)
  | some block =>
      match w.getChunkAt x y with
      | some chunk =>
          let l := chunk.worldToLocal x y
          match chunk.removeBlock l.1 l.2 z with
          | Except.error e => Except.error e
          | Except.ok chunk2 =>
              Except.ok
                ({ w with chunks := jsSet w.chunks chunk2.id chunk2 },
                 some ⟨block, x, y, z⟩)
      | none => Except.ok (w, some ⟨block, x, y, z⟩)

/-- Every chunk is registered under its own id (true of every world the
manager builds: `createWorld`, `getChunkAt(.., true)` and `setBlockAt`
all store chunks under `chunk.id`). -/
def World.IdInv (w : World) : Prop :=
  ∀ p ∈ w.chunks, p.2.id = p.1

instance (w : World) : Decidable w.IdInv := by
  unfold World.IdInv; infer_instance

/-! ## StateManager (`engine/state/StateManager.js`)

History entries, the bounded history, the `block:added`/`block:removed`
bus handlers, and the undo/redo machine. -/

/-- The `data` payload of a history entry (`block` present for
place-exact payloads). -/
structure HistoryData where
  x : Int
  y : Int
  z : Int
  block : Option Block
  deriving DecidableEq

/-- The `undo` sub-record of a history entry. -/
structure UndoSpec where
  type : String
  data : HistoryData
  deriving DecidableEq

/-- One history entry `{type, data, undo, timestamp}`. -/
structure HistoryAction where
  type : String
  data : HistoryData
  undo : UndoSpec
  timestamp : Nat
  deriving DecidableEq

/-- `this.maxHistory`. -/
def maxHistory : Int := 50

/-- The StateManager's mutable state: `worldState.blocks` (keyed by the
world-coordinate `"x,y,z"` triples), the history with its cursor, the
re-entrancy flag, and the interaction state the claims touch. -/
structure SMState where
  blocks : List ((Int × Int × Int) × Block)
  history : List HistoryAction
  historyIndex : Int
  isUndoingOrRedoing : Bool
  currentTool : String
  hoveredTile : Option (Int × Int)
  selectedTile : Option (Int × Int)
  deriving DecidableEq

/-- The constructor state of the StateManager. -/
def SMState.init : SMState :=
  { blocks := [], history := [], historyIndex := -1
  , isUndoingOrRedoing := false, currentTool := "select"
  , hoveredTile := none, selectedTile := none }

/-- `StateManager.recordAction`: truncate any redo tail, push the entry
(with a fresh timestamp), then either drop the oldest entry (capacity
exceeded) without advancing the cursor, or advance the cursor. -/
def SMState.recordAction (sm : SMState) (action : HistoryAction) : SMState :=
  let history :=
    if sm.historyIndex < (sm.history.length : Int) - 1 then
      sm.history.take (sm.historyIndex + 1).toNat
    else sm.history
  let history := history ++ [{ action with timestamp := dateNow }]
  if (history.length : Int) > maxHistory then
    { sm with history := history.drop 1 }
  else
    { sm with history := history, historyIndex := sm.historyIndex + 1 }

/-- The `block:added` bus handler: mirror the block into
`worldState.blocks`, and record a history entry unless replaying. -/
def SMState.onBlockAdded (sm : SMState) (ev : BlockEvent) : SMState :=
  let sm := { sm with blocks := jsSet sm.blocks (ev.worldX, ev.worldY, ev.z) ev.block }
  if sm.isUndoingOrRedoing then sm
  else
    sm.recordAction
      { type := "block:placed"
      , data := { x := ev.worldX, y := ev.worldY, z := ev.z, block := some ev.block.clone }
      , undo :=
        { type := "block:remove"
        , data := { x := ev.worldX, y := ev.worldY, z := ev.z, block := none } }
      , timestamp := dateNow }

/-- The `block:removed` bus handler (its `block &&` guard always holds:
the manager only emits the event with a block). -/
def SMState.onBlockRemoved (sm : SMState) (ev : BlockEvent) : SMState :=
  let sm := { sm with blocks := jsDelete sm.blocks (ev.worldX, ev.worldY, ev.z) }
  if sm.isUndoingOrRedoing then sm
  else
    sm.recordAction
      { type := "block:removed"
      , data := { x := ev.worldX, y := ev.worldY, z := ev.z, block := none }
      , undo :=
        { type := "block:place"
        , data := { x := ev.worldX, y := ev.worldY, z := ev.z, block := some ev.block.clone } }
      , timestamp := dateNow }

/-- `StateManager.getHighestBlockZ` (over `worldState.blocks`, world
coordinates). -/
def SMState.getHighestBlockZ (sm : SMState) (x y : Int) : Int :=
  sm.blocks.foldl
    (fun highestZ p =>
      if p.1.1 = x ∧ p.1.2.1 = y ∧ p.1.2.2 > highestZ
      then p.1.2.2 else highestZ)
    (-1)

/-! ## The composed system (`GameCanvas` wiring)

`Sys` is the WorldManager plus StateManager state; the `Sys.request*`
functions are the synchronous delivery of `tile:requestPlace` /
`tile:requestPlaceExact` / `tile:requestDelete` events to the
WorldManager handlers, whose resulting `block:added` / `block:removed`
events are delivered in turn to the StateManager handlers.  A handler
exception is caught and logged by `EventBus.emit` (and a static-chunk
throw happens before any mutation), so the error cases leave the system
unchanged. -/

structure Sys where
  world : World
  sm : SMState
  deriving DecidableEq

/-- The composed system right after `createWorld('default', 8, 8)` (the
`GameCanvas` composition root with the config camera centre). -/
def Sys.init : Sys :=
  { world := World.createWorld "default" 8 8, sm := SMState.init }

/-- Delivery of `tile:requestPlace` to `WorldManager.placeBlock`,
followed by delivery of its `block:added` event. -/
def Sys.requestPlace (s : Sys) (x y z : Int) : Sys :=
  match s.world.placeBlock x y z with
  | Except.ok (w, some ev) => { world := w, sm := s.sm.onBlockAdded ev }
  | Except.ok (w, none) => { s with world := w }
  | Except.error _ => s

/-- Delivery of `tile:requestPlaceExact` to
`WorldManager.placeBlockExact` (a missing `block` payload would throw
inside the handler, swallowed at the bus boundary). -/
def Sys.requestPlaceExact (s : Sys) (x y z : Int) (block : Option Block) : Sys :=
  match block with
  | none => s
  | some b =>
      match s.world.placeBlockExact x y z b with
      | Except.ok (w, some ev) => { world := w, sm := s.sm.onBlockAdded ev }
      | Except.ok (w, none) => { s with world := w }
      | Except.error _ => s

/-- Delivery of `tile:requestDelete` to `WorldManager.removeBlock`,
followed by delivery of its `block:removed` event. -/
def Sys.requestDelete (s : Sys) (x y z : Int) : Sys :=
  match s.world.removeBlock x y z with
  | Except.ok (w, some ev) => { world := w, sm := s.sm.onBlockRemoved ev }
  | Except.ok (w, none) => { s with world := w }
  | Except.error _ => s

/-- `StateManager.handleTileClick`: floor to the tile, select it, then in
`select`/`place` mode request placement at `highest + 1` (stacking), in
`delete` mode request removal of the topmost layer, else just select
(that event mutates no state under verification). -/
def Sys.handleTileClick (s : Sys) (worldX worldY : ℚ) : Sys :=
  let tileX : Int := ⌊worldX⌋
  let tileY : Int := ⌊worldY⌋
  let s := { s with sm := { s.sm with selectedTile := some (tileX, tileY) } }
  let highestZ := s.sm.getHighestBlockZ tileX tileY
  let hasAnyBlock := highestZ ≥ 0
  if s.sm.currentTool = "select" then
    let targetZ := if hasAnyBlock then highestZ + 1 else 0
    s.requestPlace tileX tileY targetZ
  else if s.sm.currentTool = "place" then
    let targetZ := if hasAnyBlock then highestZ + 1 else 0
    s.requestPlace tileX tileY targetZ
  else if s.sm.currentTool = "delete" ∧ hasAnyBlock then
    s.requestDelete tileX tileY highestZ
  else s

/-- `StateManager.executeUndoAction`: replay the inverse —
`tile:requestPlaceExact` for a recorded removal, `tile:requestDelete` for
a recorded placement. -/
def Sys.executeUndoAction (s : Sys) (u : UndoSpec) : Sys :=
  if u.type = "block:place" then
    s.requestPlaceExact u.data.x u.data.y u.data.z u.data.block
  else if u.type = "block:remove" then
    s.requestDelete u.data.x u.data.y u.data.z
  else s

/-- `StateManager.executeRedoAction`: re-execute the original action. -/
def Sys.executeRedoAction (s : Sys) (action : HistoryAction) : Sys :=
  if action.type = "block:placed" then
    s.requestPlaceExact action.data.x action.data.y action.data.z action.data.block
  else if action.type = "block:removed" then
    s.requestDelete action.data.x action.data.y action.data.z
  else s

/-- `StateManager.undo`: no-op outside the valid cursor range; otherwise
set the re-entrancy flag, execute the inverse of the current entry,
decrement the cursor, and clear the flag (the `finally`).  Nothing in the
replay path throws past the bus boundary, so the `catch` branch adds
nothing here. -/
def Sys.undo (s : Sys) : Sys :=
  if s.sm.historyIndex < 0 ∨ (s.sm.history.length : Int) ≤ s.sm.historyIndex then
    s
  else
    match s.sm.history.get? s.sm.historyIndex.toNat with
    | none => s
    | some action =>
        let s := { s with sm := { s.sm with isUndoingOrRedoing := true } }
        let s := s.executeUndoAction action.undo
        let s := { s with sm := { s.sm with historyIndex := s.sm.historyIndex - 1 } }
        { s with sm := { s.sm with isUndoingOrRedoing := false } }

/-- `StateManager.redo`: no-op at the tail; otherwise advance the cursor,
set the flag, re-execute the entry at the new cursor, and clear the flag
(the index-rollback `catch` is dead: handler errors are swallowed at the
bus boundary before reaching it). -/
def Sys.redo (s : Sys) : Sys :=
  if (s.sm.history.length : Int) - 1 ≤ s.sm.historyIndex then
    s
  else
    let s := { s with sm := { s.sm with historyIndex := s.sm.historyIndex + 1 } }
    match s.sm.history.get? s.sm.historyIndex.toNat with
    | none => s
    | some action =>
        let s := { s with sm := { s.sm with isUndoingOrRedoing := true } }
        let s := s.executeRedoAction action
        { s with sm := { s.sm with isUndoingOrRedoing := false } }

/-! ## IsometricRenderer projection and overlay positions

Both renderer variants (`engine/rendering/IsometricRenderer.js` and the
bug-fixed variant concatenated into `engine/core/Module.js`) share the
same `worldToIsometric` / `isometricToWorld`; the screen-position
computations below are from the bug-fixed variant, which is the one with
`renderHoverHighlight`. -/

/-- `worldToIsometric(worldX, worldY, worldZ)`. -/
def worldToIsometric (worldX worldY worldZ : ℚ) : ℚ × ℚ :=
  ( (worldX - worldY) * (GameConfig.tileWidth / 2)
  , (worldX + worldY) * (GameConfig.tileHeight / 2) - worldZ * GameConfig.tileDepth )

/-- `isometricToWorld(isoX, isoY)`. -/
def isometricToWorld (isoX isoY : ℚ) : ℚ × ℚ :=
  ( (isoX / (GameConfig.tileWidth / 2) + isoY / (GameConfig.tileHeight / 2)) / 2
  , (isoY / (GameConfig.tileHeight / 2) - isoX / (GameConfig.tileWidth / 2)) / 2 )

/-- The renderer camera (`this.camera`). -/
structure Camera where
  x : ℚ
  y : ℚ
  zoom : ℚ
  deriving DecidableEq

/-- `block.properties?.height || 1` as read by `renderBlock`. -/
def blockRenderHeight (b : Block) : ℚ :=
  jsOrRat b.propsHeight 1

/-- The screen position at which `renderBlock` draws a block: the
camera-relative base isometric position at `z = 0`, shifted up by the
stacking offset `z * blockHeight * tileDepth`, zoomed and centred. -/
def renderBlockScreenPos (cam : Camera) (width height : ℚ)
    (worldX worldY z blockHeight : ℚ) : ℚ × ℚ :=
  let relX := worldX - cam.x
  let relY := worldY - cam.y
  let baseIso := worldToIsometric relX relY 0
  let stackOffset := z * blockHeight * GameConfig.tileDepth
  ( baseIso.1 * cam.zoom + width / 2
  , (baseIso.2 - stackOffset) * cam.zoom + height / 2 )

/-- The screen position at which `renderHoverHighlight` draws the hover
overlay for a tile: `worldToIsometric` is called with the `z` argument
omitted (so `z = 0`), zoomed and centred. -/
def renderHoverHighlightScreenPos (cam : Camera) (width height : ℚ)
    (tileX tileY : ℚ) : ℚ × ℚ :=
  let relX := tileX - cam.x
  let relY := tileY - cam.y
  let iso := worldToIsometric relX relY 0
  ( iso.1 * cam.zoom + width / 2
  , iso.2 * cam.zoom + height / 2 )

/-! ## Concrete inputs used by witnesses and counterexamples -/

/-- A default block as `placeBlock` builds one at `(5, 5, 0)`. -/
def exampleBlock : Block :=
  Block.make 5 5 0 "grass"
    { BlockProps.empty with color := some "#00ff88", height := some 2 }

/-- A fresh chunk whose metadata marks it static. -/
def staticChunkExample : Chunk :=
  let c := Chunk.make 0 0 "default"
  { c with metadata := { c.metadata with static := true } }

/-- An entity as `generateTerrain` spawns one (integral coordinates). -/
def exampleEntity : Entity :=
  Entity.make "default_0_0_tree_2_3" 2 3 0 "tree" EntityProps.empty

/-- An entity driven to zero health by `takeDamage`. -/
def entityHealthZeroExample : Entity :=
  (Entity.make "e1" 1 1 0 "npc" EntityProps.empty).takeDamage 100

/-- A history entry as the `block:added` handler records one. -/
def exampleAction : HistoryAction :=
  { type := "block:placed"
  , data := { x := 5, y := 5, z := 0, block := some exampleBlock }
  , undo :=
    { type := "block:remove"
    , data := { x := 5, y := 5, z := 0, block := none } }
  , timestamp := 0 }

/-- A chunk holding one placed block and one entity, for serialization
witnesses. -/
def exampleChunk : Chunk :=
  let c := Chunk.make 0 0 "default"
  { c with blocks := [((5, 5, 0), exampleBlock)],
           entities := [(exampleEntity.id, exampleEntity)],
           dirty := true }

/-- The chunk obtained from `exampleChunk` by one successful `setBlock`
at `(1, 2, 0)`. -/
def exampleChunkAfterSet : Chunk :=
  match exampleChunk.setBlock 1 2 0 (some exampleBlock) true with
  | Except.ok c2 => c2
  | Except.error _ => exampleChunk

/-! The concrete undo/redo scenario: two stacking placements at `(5, 5)`
through the click path, then three undos and two redos. -/

/-- First placement at `(5, 5)`. -/
def scenarioPlace1 : Sys := Sys.handleTileClick Sys.init 5 5

/-- Second placement at `(5, 5)` (stacks at `z = 1`). -/
def scenarioPlace2 : Sys := Sys.handleTileClick scenarioPlace1 5 5

/-- First `undo()`. -/
def scenarioUndo1 : Sys := Sys.undo scenarioPlace2

/-- Second `undo()`. -/
def scenarioUndo2 : Sys := Sys.undo scenarioUndo1

/-- Third `undo()` (a no-op). -/
def scenarioUndo3 : Sys := Sys.undo scenarioUndo2

/-- Two `redo()` calls after the three undos. -/
def scenarioRedo2 : Sys := Sys.redo (Sys.redo scenarioUndo3)

/-- Decidable equality of `Except` results (for evaluating the embedded
operations on concrete inputs). -/
instance {ε α : Type} [DecidableEq ε] [DecidableEq α] :
    DecidableEq (Except ε α) := fun a b =>
  match a, b with
  | Except.error e, Except.error e' =>
      if h : e = e' then Decidable.isTrue (by rw [h])
      else Decidable.isFalse (by intro hc; cases hc; exact h rfl)
  | Except.error _, Except.ok _ => Decidable.isFalse (by intro hc; cases hc)
  | Except.ok _, Except.error _ => Decidable.isFalse (by intro hc; cases hc)
  | Except.ok v, Except.ok v' =>
      if h : v = v' then Decidable.isTrue (by rw [h])
      else Decidable.isFalse (by intro hc; cases hc; exact h rfl)

/-! ## Shared lemmas about the Map embedding -/

theorem jsGet_eq_some_mem {α β : Type} [DecidableEq α] {m : List (α × β)}
    {k : α} {v : β} (h : jsGet m k = some v) : (k, v) ∈ m := by
  induction m with
  | nil => simp [jsGet] at h
  | cons p rest ih =>
      obtain ⟨k', v'⟩ := p
      by_cases hk : k' = k
      · subst hk
        simp [jsGet] at h
        simp [h]
      · simp [jsGet, hk] at h
        exact List.mem_cons_of_mem _ (ih h)

theorem jsGet_set_self {α β : Type} [DecidableEq α] (m : List (α × β))
    (k : α) (v : β) : jsGet (jsSet m k v) k = some v := by
  induction m with
  | nil => simp [jsSet, jsGet]
  | cons p rest ih =>
      obtain ⟨k', v'⟩ := p
      by_cases hk : k' = k
      · simp [jsSet, hk, jsGet]
      · simp [jsSet, hk, jsGet, ih]

theorem jsSet_of_get_none {α β : Type} [DecidableEq α] {m : List (α × β)}
    {k : α} (v : β) (h : jsGet m k = none) : jsSet m k v = m ++ [(k, v)] := by
  induction m with
  | nil => simp [jsSet]
  | cons p rest ih =>
      obtain ⟨k', v'⟩ := p
      by_cases hk : k' = k
      · simp [jsGet, hk] at h
      · simp [jsGet, hk] at h
        simp [jsSet, hk, ih h]

theorem jsGet_append {α β : Type} [DecidableEq α] (m l : List (α × β))
    (k : α) (h : jsGet m k = none) : jsGet (m ++ l) k = jsGet l k := by
  induction m with
  | nil => simp
  | cons p rest ih =>
      obtain ⟨k', v'⟩ := p
      by_cases hk : k' = k
      · simp [jsGet, hk] at h
      · simp [jsGet, hk] at h ⊢
        exact ih h

theorem mem_jsSet {α β : Type} [DecidableEq α] {m : List (α × β)}
    {k : α} {v : β} {p : α × β} (h : p ∈ jsSet m k v) :
    p = (k, v) ∨ p ∈ m := by
  induction m with
  | nil => simp [jsSet] at h; simp [h]
  | cons q rest ih =>
      obtain ⟨k', v'⟩ := q
      by_cases hk : k' = k
      · simp [jsSet, hk] at h
        rcases h with h | h
        · exact Or.inl h
        · exact Or.inr (List.mem_cons_of_mem _ h)
      · simp [jsSet, hk] at h
        rcases h with h | h
        · exact Or.inr (by simp [h])
        · rcases ih h with h' | h'
          · exact Or.inl h'
          · exact Or.inr (List.mem_cons_of_mem _ h')

theorem mem_jsDelete {α β : Type} [DecidableEq α] {m : List (α × β)}
    {k : α} {p : α × β} (h : p ∈ jsDelete m k) : p ∈ m := by
  induction m with
  | nil => simp [jsDelete] at h
  | cons q rest ih =>
      obtain ⟨k', v'⟩ := q
      by_cases hk : k' = k
      · simp [jsDelete, hk] at h
        exact List.mem_cons_of_mem _ h
      · simp [jsDelete, hk] at h
        rcases h with h | h
        · simp [h]
        · exact List.mem_cons_of_mem _ (ih h)

/-! ## C6 — projection inverse -/

/-- C6: for every `(x, y)`, `isometricToWorld (worldToIsometric x y 0)`
equals `(x, y)`: `isometricToWorld` is the exact algebraic inverse of the
2D part of `worldToIsometric(x,y,z) = ((x-y)·tileWidth/2,
(x+y)·tileHeight/2 - z·tileDepth)` (exactly over `ℚ`, hence within any
floating-point tolerance). -/
theorem projection_inverse (x y : ℚ) :
    isometricToWorld (worldToIsometric x y 0).1 (worldToIsometric x y 0).2 = (x, y) := by
  unfold isometricToWorld worldToIsometric GameConfig.tileWidth
    GameConfig.tileHeight GameConfig.tileDepth
  refine Prod.ext ?_ ?_ <;> (show _ = _) <;> ring

/-! ## C4 — mutations of a static chunk -/

/-- C4 counterexample: on a chunk marked static, `setBlock`,
`removeBlock`, `addEntity` and `removeEntity` do not return without
throwing — each throws `Error('Cannot modify static chunk ...')`, refuting
the claim that static-chunk mutations are warn-and-return no-ops. -/
theorem static_chunk_mutation_counterexample :
    staticChunkExample.metadata.static = true ∧
    staticChunkExample.setBlock 1 1 0 (some exampleBlock) true =
      Except.error "Cannot modify static chunk default_0_0" ∧
    staticChunkExample.removeBlock 1 1 0 =
      Except.error "Cannot modify static chunk default_0_0" ∧
    staticChunkExample.addEntity exampleEntity =
      Except.error "Cannot modify static chunk default_0_0" ∧
    staticChunkExample.removeEntity "e1" =
      Except.error "Cannot modify static chunk default_0_0" := by
  decide

/-- C4 amended: every mutation operation on a chunk whose metadata marks
it static fails by throwing (`Error('Cannot modify static chunk ...')`)
before any mutation, so the chunk value (blocks, entities, version, dirty
flag) is left unchanged — it is an exception, not a warn-and-return
no-op. -/
theorem static_chunk_mutation_amended (c : Chunk) (x y z : Int)
    (ob : Option Block) (d : Bool) (e : Entity) (eid : String)
    (h : c.metadata.static = true) :
    c.setBlock x y z ob d = Except.error ("Cannot modify static chunk " ++ c.id) ∧
    c.removeBlock x y z = Except.error ("Cannot modify static chunk " ++ c.id) ∧
    c.addEntity e = Except.error ("Cannot modify static chunk " ++ c.id) ∧
    c.removeEntity eid = Except.error ("Cannot modify static chunk " ++ c.id) := by
  refine ⟨?_, ?_, ?_, ?_⟩ <;>
    simp [Chunk.setBlock, Chunk.removeBlock, Chunk.addEntity, Chunk.removeEntity, h]

/-- Witness for `static_chunk_mutation_amended` at a concrete static
chunk. -/
theorem static_chunk_mutation_amended_witness :
    staticChunkExample.setBlock 2 3 1 none false =
      Except.error ("Cannot modify static chunk " ++ staticChunkExample.id) :=
  (static_chunk_mutation_amended staticChunkExample 2 3 1 none false
    exampleEntity "e1" (by decide)).1

/-! ## C8 — hover highlight screen position -/

/-- C8 counterexample: in the world obtained by stacking two blocks at
`(5, 5)` the topmost occupied layer is `z = 1` (block render height 2),
yet `renderHoverHighlight` draws the hover overlay at a screen position
different from the one `renderBlock` gives that topmost block — the
highlight carries no z-based vertical offset. -/
theorem hover_highlight_counterexample :
    (Sys.handleTileClick (Sys.handleTileClick Sys.init 5 5) 5 5).world.getHighestBlockZ 5 5 = 1 ∧
    ((Sys.handleTileClick (Sys.handleTileClick Sys.init 5 5) 5 5).world.getBlockAt 5 5 1).map
      blockRenderHeight = some 2 ∧
    renderHoverHighlightScreenPos ⟨0, 0, 1⟩ 800 600 5 5 = (400, 460) ∧
    renderBlockScreenPos ⟨0, 0, 1⟩ 800 600 5 5 1 2 = (400, 420) ∧
    ((400 : ℚ), (460 : ℚ)) ≠ ((400 : ℚ), (420 : ℚ)) := by
  refine ⟨by decide, by decide, ?_, ?_, by decide⟩
  · unfold renderHoverHighlightScreenPos worldToIsometric GameConfig.tileWidth
      GameConfig.tileHeight GameConfig.tileDepth
    refine Prod.ext ?_ ?_ <;> norm_num
  · unfold renderBlockScreenPos worldToIsometric GameConfig.tileWidth
      GameConfig.tileHeight GameConfig.tileDepth
    refine Prod.ext ?_ ?_ <;> norm_num

/-- C8 amended: the hover highlight is always rendered at the ground
plane — for every camera, canvas size and tile, its screen position is
exactly the position `renderBlock` would give a block at layer `z = 0`
(any block height): the z argument to `worldToIsometric` is omitted and
no stack offset is applied, regardless of the topmost occupied layer. -/
theorem hover_highlight_amended (cam : Camera) (width height tileX tileY bh : ℚ) :
    renderHoverHighlightScreenPos cam width height tileX tileY =
      renderBlockScreenPos cam width height tileX tileY 0 bh := by
  unfold renderHoverHighlightScreenPos renderBlockScreenPos
  refine Prod.ext ?_ ?_ <;> (show _ = _) <;> ring

/-! ## C2 — the place/undo/redo scenario -/

/-- C2: starting from the freshly created world, placing at `(5, 5)`
gives highest occupied layer `0`, a second placement gives `1`;
`undo()` lowers it to `0`, a second `undo()` to `-1` (empty), a third
`undo()` is a no-op with the history cursor staying at `-1`, and two
`redo()` calls (replaying the recorded snapshots through
`tile:requestPlaceExact` / `tile:requestDelete` and the WorldManager
handlers) restore the highest occupied layer to `1`. -/
theorem undo_redo_scenario :
    scenarioPlace1.world.getHighestBlockZ 5 5 = 0 ∧
    scenarioPlace2.world.getHighestBlockZ 5 5 = 1 ∧
    scenarioUndo1.world.getHighestBlockZ 5 5 = 0 ∧
    scenarioUndo2.world.getHighestBlockZ 5 5 = -1 ∧
    scenarioUndo2.sm.historyIndex = -1 ∧
    scenarioUndo3 = scenarioUndo2 ∧
    scenarioRedo2.world.getHighestBlockZ 5 5 = 1 := by
  have hidx : scenarioUndo2.sm.historyIndex = -1 := by decide
  have hnoop : scenarioUndo3 = scenarioUndo2 := by
    show Sys.undo scenarioUndo2 = scenarioUndo2
    unfold Sys.undo
    split
    · rfl
    · next hguard => exact absurd (Or.inl (by rw [hidx]; decide)) hguard
  exact ⟨by decide, by decide, by decide, by decide, hidx, hnoop, by decide⟩

/-! ## C10 — removing a missing block is a no-op -/

/-- C10: wherever `getBlockAt` is `null`, `WorldManager.removeBlock`
only logs a warning: the world (every chunk's blocks, version and dirty
flag) is unchanged and no `block:removed` event is emitted, so the
delivered `tile:requestDelete` leaves the whole system — including the
recorded history — unchanged. -/
theorem removeBlock_missing_noop (s : Sys) (x y z : Int)
    (h : s.world.getBlockAt x y z = none) :
    s.world.removeBlock x y z = Except.ok (s.world, none) ∧
    Sys.requestDelete s x y z = s := by
  have h1 : s.world.removeBlock x y z = Except.ok (s.world, none) := by
    unfold World.removeBlock
    rw [h]
  refine ⟨h1, ?_⟩
  unfold Sys.requestDelete
  rw [h1]

/-- Witness for `removeBlock_missing_noop` at the empty cell `(9, 9, 0)`
of the initial world. -/
theorem removeBlock_missing_noop_witness :
    Sys.init.world.getBlockAt 9 9 0 = none ∧
    Sys.requestDelete Sys.init 9 9 0 = Sys.init :=
  ⟨by decide, (removeBlock_missing_noop Sys.init 9 9 0 (by decide)).2⟩

/-! ## C3 — undo/redo never appends to history -/

theorem onBlockAdded_replay (sm : SMState) (ev : BlockEvent)
    (h : sm.isUndoingOrRedoing = true) :
    (sm.onBlockAdded ev).history = sm.history ∧
    (sm.onBlockAdded ev).isUndoingOrRedoing = true := by
  simp [SMState.onBlockAdded, h]

theorem onBlockRemoved_replay (sm : SMState) (ev : BlockEvent)
    (h : sm.isUndoingOrRedoing = true) :
    (sm.onBlockRemoved ev).history = sm.history ∧
    (sm.onBlockRemoved ev).isUndoingOrRedoing = true := by
  simp [SMState.onBlockRemoved, h]

theorem requestPlace_replay (s : Sys) (x y z : Int)
    (h : s.sm.isUndoingOrRedoing = true) :
    (s.requestPlace x y z).sm.history = s.sm.history ∧
    (s.requestPlace x y z).sm.isUndoingOrRedoing = true := by
  unfold Sys.requestPlace
  cases hres : s.world.placeBlock x y z with
  | error e => simp [h]
  | ok p =>
      obtain ⟨w, oev⟩ := p
      cases oev with
      | none => simp [h]
      | some ev => simp [onBlockAdded_replay s.sm ev h]

theorem requestPlaceExact_replay (s : Sys) (x y z : Int) (ob : Option Block)
    (h : s.sm.isUndoingOrRedoing = true) :
    (s.requestPlaceExact x y z ob).sm.history = s.sm.history ∧
    (s.requestPlaceExact x y z ob).sm.isUndoingOrRedoing = true := by
  unfold Sys.requestPlaceExact
  cases ob with
  | none => simp [h]
  | some b =>
      cases hres : s.world.placeBlockExact x y z b with
      | error e => simp [hres, h]
      | ok p =>
          obtain ⟨w, oev⟩ := p
          cases oev with
          | none => simp [hres, h]
          | some ev => simp [hres, onBlockAdded_replay s.sm ev h]

theorem requestDelete_replay (s : Sys) (x y z : Int)
    (h : s.sm.isUndoingOrRedoing = true) :
    (s.requestDelete x y z).sm.history = s.sm.history ∧
    (s.requestDelete x y z).sm.isUndoingOrRedoing = true := by
  unfold Sys.requestDelete
  cases hres : s.world.removeBlock x y z with
  | error e => simp [h]
  | ok p =>
      obtain ⟨w, oev⟩ := p
      cases oev with
      | none => simp [h]
      | some ev => simp [onBlockRemoved_replay s.sm ev h]

theorem executeUndoAction_replay (s : Sys) (u : UndoSpec)
    (h : s.sm.isUndoingOrRedoing = true) :
    (s.executeUndoAction u).sm.history = s.sm.history ∧
    (s.executeUndoAction u).sm.isUndoingOrRedoing = true := by
  unfold Sys.executeUndoAction
  split
  · exact requestPlaceExact_replay s u.data.x u.data.y u.data.z u.data.block h
  · split
    · exact requestDelete_replay s u.data.x u.data.y u.data.z h
    · exact ⟨rfl, h⟩

theorem executeRedoAction_replay (s : Sys) (a : HistoryAction)
    (h : s.sm.isUndoingOrRedoing = true) :
    (s.executeRedoAction a).sm.history = s.sm.history ∧
    (s.executeRedoAction a).sm.isUndoingOrRedoing = true := by
  unfold Sys.executeRedoAction
  split
  · exact requestPlaceExact_replay s a.data.x a.data.y a.data.z a.data.block h
  · split
    · exact requestDelete_replay s a.data.x a.data.y a.data.z h
    · exact ⟨rfl, h⟩

/-- C3: no call to `undo()` or `redo()` ever appends to `history`: both
set the `isUndoingOrRedoing` flag before replaying (clearing it at the
end), and the `block:added` / `block:removed` handlers call
`recordAction` only when that flag is false, so the history list — in
particular its length — is invariant across any `undo()` or `redo()`. -/
theorem undo_redo_history_invariant (s : Sys) :
    (Sys.undo s).sm.history = s.sm.history ∧
    (Sys.redo s).sm.history = s.sm.history ∧
    (Sys.undo s).sm.history.length = s.sm.history.length ∧
    (Sys.redo s).sm.history.length = s.sm.history.length := by
  have hundo : (Sys.undo s).sm.history = s.sm.history := by
    unfold Sys.undo
    split
    · rfl
    · split
      · rfl
      · next action heq =>
          exact (executeUndoAction_replay
            { s with sm := { s.sm with isUndoingOrRedoing := true } }
            action.undo rfl).1
  have hredo : (Sys.redo s).sm.history = s.sm.history := by
    unfold Sys.redo
    split
    · rfl
    · dsimp only
      split
      · rfl
      · next action heq =>
          exact (executeRedoAction_replay _ action rfl).1
  exact ⟨hundo, hredo, by rw [hundo], by rw [hredo]⟩

/-! ## C5 — recordAction: truncate, push, slide, invariant -/

/-- C5: `recordAction` first truncates any redo tail to
`history[0..historyIndex]`, then pushes the new entry; when the resulting
length exceeds the capacity of 50 the oldest entry is dropped without
advancing `historyIndex` (the window slides), otherwise `historyIndex`
advances by one; in all cases `-1 ≤ historyIndex < history.length` is
preserved. -/
theorem recordAction_spec (sm : SMState) (a : HistoryAction)
    (h1 : -1 ≤ sm.historyIndex)
    (h2 : sm.historyIndex < (sm.history.length : Int)) :
    ((sm.history.take (sm.historyIndex + 1).toNat ++
        [{ a with timestamp := dateNow }]).length : Int) = sm.historyIndex + 2 ∧
    (if ((sm.history.take (sm.historyIndex + 1).toNat ++
          [{ a with timestamp := dateNow }]).length : Int) > maxHistory
      then
        (sm.recordAction a).history =
          (sm.history.take (sm.historyIndex + 1).toNat ++
            [{ a with timestamp := dateNow }]).drop 1 ∧
        (sm.recordAction a).historyIndex = sm.historyIndex
      else
        (sm.recordAction a).history =
          sm.history.take (sm.historyIndex + 1).toNat ++
            [{ a with timestamp := dateNow }] ∧
        (sm.recordAction a).historyIndex = sm.historyIndex + 1) ∧
    (-1 ≤ (sm.recordAction a).historyIndex ∧
      (sm.recordAction a).historyIndex <
        ((sm.recordAction a).history.length : Int)) := by
  have htoNat : (((sm.historyIndex + 1).toNat : Int)) = sm.historyIndex + 1 :=
    Int.toNat_of_nonneg (by omega)
  have hle : (sm.historyIndex + 1).toNat ≤ sm.history.length := by
    omega
  have hlen_take :
      (sm.history.take (sm.historyIndex + 1).toNat).length =
        (sm.historyIndex + 1).toNat := by
    rw [List.length_take]
    exact min_eq_left hle
  have hlen_push :
      ((sm.history.take (sm.historyIndex + 1).toNat ++
          [{ a with timestamp := dateNow }]).length : Int) =
        sm.historyIndex + 2 := by
    rw [List.length_append, hlen_take, List.length_singleton]
    omega
  have htrunc :
      (if sm.historyIndex < (sm.history.length : Int) - 1 then
          sm.history.take (sm.historyIndex + 1).toNat
        else sm.history) =
        sm.history.take (sm.historyIndex + 1).toNat := by
    split
    · rfl
    · next hge =>
        rw [List.take_of_length_le]
        omega
  have hrec :
      sm.recordAction a =
        (if ((sm.history.take (sm.historyIndex + 1).toNat ++
              [{ a with timestamp := dateNow }]).length : Int) > maxHistory
          then { sm with
                 history :=
                   (sm.history.take (sm.historyIndex + 1).toNat ++
                     [{ a with timestamp := dateNow }]).drop 1 }
          else { sm with
                 history :=
                   sm.history.take (sm.historyIndex + 1).toNat ++
                     [{ a with timestamp := dateNow }],
                 historyIndex := sm.historyIndex + 1 }) := by
    unfold SMState.recordAction
    rw [htrunc]
  refine ⟨hlen_push, ?_, ?_⟩
  · split
    · next hover =>
        rw [hrec, if_pos hover]
        exact ⟨rfl, rfl⟩
    · next hunder =>
        rw [hrec, if_neg hunder]
        exact ⟨rfl, rfl⟩
  · rw [hrec]
    split
    · next hover =>
        refine ⟨h1, ?_⟩
        show sm.historyIndex <
          (((sm.history.take (sm.historyIndex + 1).toNat ++
            [{ a with timestamp := dateNow }]).drop 1).length : Int)
        simp only [List.length_drop, List.length_append, hlen_take,
          List.length_singleton]
        omega
    · next hunder =>
        refine ⟨?_, ?_⟩
        · show -1 ≤ sm.historyIndex + 1
          omega
        · show sm.historyIndex + 1 <
            ((sm.history.take (sm.historyIndex + 1).toNat ++
              [{ a with timestamp := dateNow }]).length : Int)
          rw [hlen_push]
          omega

/-- Witness for `recordAction_spec`: recording onto the fresh
StateManager state preserves the cursor invariant. -/
theorem recordAction_spec_witness :
    -1 ≤ (SMState.init.recordAction exampleAction).historyIndex ∧
    (SMState.init.recordAction exampleAction).historyIndex <
      ((SMState.init.recordAction exampleAction).history.length : Int) :=
  (recordAction_spec SMState.init exampleAction (by decide) (by decide)).2.2

/-! ## C9 — block keys match block coordinates -/

theorem chunk_make_keyinv (cx cy : Int) (wid : String) :
    (Chunk.make cx cy wid).KeyInv := by
  intro p hp
  simp [Chunk.make] at hp

theorem setBlock_keyinv (c : Chunk) (x y z : Int) (ob : Option Block)
    (d : Bool) (c2 : Chunk) (hInv : c.KeyInv)
    (heq : c.setBlock x y z ob d = Except.ok c2) : c2.KeyInv := by
  simp only [Chunk.setBlock] at heq
  by_cases hst : c.metadata.static = true
  · rw [if_pos hst] at heq
    cases heq
  · rw [if_neg hst] at heq
    rw [Except.ok.injEq] at heq
    subst heq
    intro p hp
    cases ob with
    | some b =>
        cases d with
        | true =>
            simp only [if_true, Chunk.markDirty] at hp
            rcases mem_jsSet hp with h | h
            · subst h
              exact ⟨rfl, rfl, rfl⟩
            · exact hInv p h
        | false =>
            simp only [if_false] at hp
            rcases mem_jsSet hp with h | h
            · subst h
              exact ⟨rfl, rfl, rfl⟩
            · exact hInv p h
    | none =>
        cases d with
        | true =>
            simp only [if_true, Chunk.markDirty] at hp
            exact hInv p (mem_jsDelete hp)
        | false =>
            simp only [if_false] at hp
            exact hInv p (mem_jsDelete hp)

theorem removeBlock_keyinv (c : Chunk) (x y z : Int) (c2 : Chunk)
    (hInv : c.KeyInv) (heq : c.removeBlock x y z = Except.ok c2) :
    c2.KeyInv :=
  setBlock_keyinv c x y z none true c2 hInv heq

theorem fold_blocks_keyinv (bjs : List BlockJson)
    (acc : List ((Int × Int × Int) × Block))
    (hacc : ∀ p ∈ acc, p.2.x = p.1.1 ∧ p.2.y = p.1.2.1 ∧ p.2.z = p.1.2.2) :
    ∀ p ∈ bjs.foldl
        (fun m bj =>
          let b := Block.fromJSON bj
          jsSet m (b.x, b.y, b.z) b) acc,
      p.2.x = p.1.1 ∧ p.2.y = p.1.2.1 ∧ p.2.z = p.1.2.2 := by
  induction bjs generalizing acc with
  | nil => exact hacc
  | cons bj rest ih =>
      intro p hp
      refine ih _ ?_ p hp
      intro q hq
      rcases mem_jsSet hq with h | h
      · subst h
        exact ⟨rfl, rfl, rfl⟩
      · exact hacc q h

theorem fromJSON_keyinv (j : ChunkJson) : (Chunk.fromJSON j).KeyInv := by
  intro p hp
  simp only [Chunk.fromJSON, Chunk.markClean] at hp
  exact fold_blocks_keyinv j.blocks [] (by intro q hq; cases hq) p hp

theorem setBlockAt_stored (w : World) (x y z : Int) (b : Block)
    (w2 : World) (stored : Block)
    (heq : w.setBlockAt x y z b = Except.ok (w2, stored)) :
    stored = { b with x := ((w.getChunkAtCreate x y).2.worldToLocal x y).1,
                      y := ((w.getChunkAtCreate x y).2.worldToLocal x y).2,
                      z := z } := by
  simp only [World.setBlockAt] at heq
  split at heq
  · cases heq
  · rw [Except.ok.injEq, Prod.mk.injEq] at heq
    exact heq.2.symm

theorem placeBlock_event_local (w w2 : World) (x y z : Int) (ev : BlockEvent)
    (heq : w.placeBlock x y z = Except.ok (w2, some ev)) :
    ev.worldX = x ∧ ev.worldY = y ∧ ev.z = z ∧
    ev.block.x = ((w.getChunkAtCreate x y).2.worldToLocal x y).1 ∧
    ev.block.y = ((w.getChunkAtCreate x y).2.worldToLocal x y).2 ∧
    ev.block.z = z := by
  simp only [World.placeBlock] at heq
  split at heq
  · cases heq
  · split at heq
    · cases heq
    · next w' stored hset =>
        rw [Except.ok.injEq, Prod.mk.injEq] at heq
        obtain ⟨hw, hev⟩ := heq
        rw [Option.some.injEq] at hev
        subst hev
        have hst := setBlockAt_stored w x y z _ w' stored hset
        refine ⟨rfl, rfl, rfl, ?_, ?_, ?_⟩ <;> rw [hst]

/-- C9: every entry of `chunk.blocks` under key `(x, y, z)` holds a block
whose own coordinate fields equal the key components: true of a fresh
chunk, preserved by `setBlock` (which overwrites the stored block's
coordinates with its arguments) and `removeBlock`, re-established from
the blocks' own coordinates by `Chunk.fromJSON`, and the block carried by
a `block:added` event of `placeBlock` holds chunk-local coordinates
(`worldToLocal` of the owning chunk) even though the event's
`worldX`/`worldY` are world coordinates. -/
theorem block_key_coordinate_invariant :
    (∀ (cx cy : Int) (wid : String), (Chunk.make cx cy wid).KeyInv) ∧
    (∀ (c : Chunk) (x y z : Int) (ob : Option Block) (d : Bool) (c2 : Chunk),
      c.KeyInv → c.setBlock x y z ob d = Except.ok c2 → c2.KeyInv) ∧
    (∀ (c : Chunk) (x y z : Int) (c2 : Chunk),
      c.KeyInv → c.removeBlock x y z = Except.ok c2 → c2.KeyInv) ∧
    (∀ j : ChunkJson, (Chunk.fromJSON j).KeyInv) ∧
    (∀ (w w2 : World) (x y z : Int) (ev : BlockEvent),
      w.placeBlock x y z = Except.ok (w2, some ev) →
      ev.worldX = x ∧ ev.worldY = y ∧ ev.z = z ∧
      ev.block.x = ((w.getChunkAtCreate x y).2.worldToLocal x y).1 ∧
      ev.block.y = ((w.getChunkAtCreate x y).2.worldToLocal x y).2 ∧
      ev.block.z = z) :=
  ⟨chunk_make_keyinv,
   fun c x y z ob d c2 => setBlock_keyinv c x y z ob d c2,
   fun c x y z c2 => removeBlock_keyinv c x y z c2,
   fromJSON_keyinv,
   fun w w2 x y z ev => placeBlock_event_local w w2 x y z ev⟩

/-- Witness for `block_key_coordinate_invariant`: the invariant holds of
a concrete chunk and is preserved by a concrete `setBlock`. -/
theorem block_key_coordinate_invariant_witness :
    exampleChunk.KeyInv ∧ exampleChunkAfterSet.KeyInv :=
  ⟨by decide,
   block_key_coordinate_invariant.2.1 exampleChunk 1 2 0 (some exampleBlock)
     true exampleChunkAfterSet (by decide) (by decide)⟩

/-! ## C7 — serialization round trips -/

theorem block_roundtrip_aux (b : Block) (h : b.WF) :
    Block.fromJSON b.toJSON = { b with propsHeight := none } := by
  obtain ⟨hsp, hc⟩ := h
  cases b with
  | mk x y z type spriteId color solid visible walkable interactable metadata propsHeight =>
      simp only [Block.WF] at hsp hc
      simp only [Block.toJSON, Block.fromJSON, Block.make, jsOrString,
        jsOrStringOpt, jsOrBool, Option.getD, Bool.or_false]
      rw [if_neg hc]
      cases spriteId with
      | none => rfl
      | some s =>
          have hs : s ≠ "" := by
            intro hcon
            exact hsp (by rw [hcon])
          simp [hs]

theorem entity_roundtrip_aux (e : Entity) (hWF : e.WF) (hh : e.health ≠ 0) :
    Entity.fromJSON e.toJSON = { e with animationTime := 0 } := by
  obtain ⟨hsp, hc, hw, hht, has, hmh⟩ := hWF
  cases e with
  | mk id x y z type spriteId color width height visible animated
      animationFrame animationSpeed animationTime solid interactable
      movable health maxHealth active metadata velocity acceleration =>
      simp only at hsp hc hw hht has hmh hh
      simp only [Entity.toJSON, Entity.fromJSON, Entity.make, jsOrString,
        jsOrStringOpt, jsOrBool, jsOrRat, Option.getD, Bool.or_false]
      rw [if_neg hc, if_neg hw, if_neg hht, if_neg has, if_neg hh, if_neg hmh]
      cases spriteId with
      | none => rfl
      | some s =>
          have hs : s ≠ "" := by
            intro hcon
            exact hsp (by rw [hcon])
          simp [hs]

theorem fold_blocks_roundtrip (l : List ((Int × Int × Int) × Block))
    (acc : List ((Int × Int × Int) × Block))
    (hWF : ∀ p ∈ l, p.2.WF ∧ p.2.x = p.1.1 ∧ p.2.y = p.1.2.1 ∧ p.2.z = p.1.2.2)
    (hfresh : ∀ p ∈ l, jsGet acc p.1 = none)
    (hnd : (l.map Prod.fst).Nodup) :
    (l.map (fun p => p.2.toJSON)).foldl
        (fun m bj =>
          let b := Block.fromJSON bj
          jsSet m (b.x, b.y, b.z) b) acc
      = acc ++ l.map (fun p => (p.1, { p.2 with propsHeight := none })) := by
  induction l generalizing acc with
  | nil => simp
  | cons p rest ih =>
      obtain ⟨hpw, hpx, hpy, hpz⟩ := hWF p (List.mem_cons_self p rest)
      have hb : Block.fromJSON p.2.toJSON = { p.2 with propsHeight := none } :=
        block_roundtrip_aux p.2 hpw
      have hkey : ((Block.fromJSON p.2.toJSON).x, (Block.fromJSON p.2.toJSON).y,
          (Block.fromJSON p.2.toJSON).z) = p.1 := by
        rw [hb]
        show (p.2.x, p.2.y, p.2.z) = p.1
        rw [hpx, hpy, hpz]
      have hstep :
          jsSet acc ((Block.fromJSON p.2.toJSON).x, (Block.fromJSON p.2.toJSON).y,
              (Block.fromJSON p.2.toJSON).z) (Block.fromJSON p.2.toJSON)
            = acc ++ [(p.1, { p.2 with propsHeight := none })] := by
        rw [hkey, hb, jsSet_of_get_none _ (hfresh p (List.mem_cons_self p rest))]
      have hnotmem : p.1 ∉ rest.map Prod.fst := by
        rw [List.map_cons, List.nodup_cons] at hnd
        exact hnd.1
      have hnd2 : (rest.map Prod.fst).Nodup := by
        rw [List.map_cons, List.nodup_cons] at hnd
        exact hnd.2
      have hfresh2 : ∀ q ∈ rest,
          jsGet (acc ++ [(p.1, { p.2 with propsHeight := none })]) q.1 = none := by
        intro q hq
        rw [jsGet_append _ _ _ (hfresh q (List.mem_cons_of_mem p hq))]
        have hne : p.1 ≠ q.1 := by
          intro hcon
          exact hnotmem (by rw [hcon]; exact List.mem_map_of_mem Prod.fst hq)
        simp [jsGet, hne]
      have hih := ih (acc ++ [(p.1, { p.2 with propsHeight := none })])
        (fun q hq => hWF q (List.mem_cons_of_mem p hq)) hfresh2 hnd2
      rw [List.map_cons, List.foldl_cons]
      show (rest.map (fun p => p.2.toJSON)).foldl _
          (jsSet acc ((Block.fromJSON p.2.toJSON).x, (Block.fromJSON p.2.toJSON).y,
            (Block.fromJSON p.2.toJSON).z) (Block.fromJSON p.2.toJSON)) = _
      rw [hstep, hih]
      simp

theorem fold_entities_roundtrip (l : List (String × Entity))
    (acc : List (String × Entity))
    (hWF : ∀ p ∈ l, p.2.WF ∧ p.2.health ≠ 0 ∧ p.2.id = p.1)
    (hfresh : ∀ p ∈ l, jsGet acc p.1 = none)
    (hnd : (l.map Prod.fst).Nodup) :
    (l.map (fun p => p.2.toJSON)).foldl
        (fun m ej =>
          let e := Entity.fromJSON ej
          jsSet m e.id e) acc
      = acc ++ l.map (fun p => (p.1, { p.2 with animationTime := 0 })) := by
  induction l generalizing acc with
  | nil => simp
  | cons p rest ih =>
      obtain ⟨hpw, hph, hpid⟩ := hWF p (List.mem_cons_self p rest)
      have he : Entity.fromJSON p.2.toJSON = { p.2 with animationTime := 0 } :=
        entity_roundtrip_aux p.2 hpw hph
      have hkey : (Entity.fromJSON p.2.toJSON).id = p.1 := by
        rw [he]
        show p.2.id = p.1
        exact hpid
      have hstep :
          jsSet acc (Entity.fromJSON p.2.toJSON).id (Entity.fromJSON p.2.toJSON)
            = acc ++ [(p.1, { p.2 with animationTime := 0 })] := by
        rw [hkey, he, jsSet_of_get_none _ (hfresh p (List.mem_cons_self p rest))]
      have hnotmem : p.1 ∉ rest.map Prod.fst := by
        rw [List.map_cons, List.nodup_cons] at hnd
        exact hnd.1
      have hnd2 : (rest.map Prod.fst).Nodup := by
        rw [List.map_cons, List.nodup_cons] at hnd
        exact hnd.2
      have hfresh2 : ∀ q ∈ rest,
          jsGet (acc ++ [(p.1, { p.2 with animationTime := 0 })]) q.1 = none := by
        intro q hq
        rw [jsGet_append _ _ _ (hfresh q (List.mem_cons_of_mem p hq))]
        have hne : p.1 ≠ q.1 := by
          intro hcon
          exact hnotmem (by rw [hcon]; exact List.mem_map_of_mem Prod.fst hq)
        simp [jsGet, hne]
      have hih := ih (acc ++ [(p.1, { p.2 with animationTime := 0 })])
        (fun q hq => hWF q (List.mem_cons_of_mem p hq)) hfresh2 hnd2
      rw [List.map_cons, List.foldl_cons]
      show (rest.map (fun p => p.2.toJSON)).foldl _
          (jsSet acc (Entity.fromJSON p.2.toJSON).id (Entity.fromJSON p.2.toJSON)) = _
      rw [hstep, hih]
      simp

theorem chunk_roundtrip_aux (c : Chunk) (hser : c.SerWF) :
    Chunk.fromJSON c.toJSON =
      { c with
        blocks := c.blocks.map (fun p => (p.1, { p.2 with propsHeight := none })),
        entities := c.entities.map (fun p => (p.1, { p.2 with animationTime := 0 })),
        dirty := false } := by
  obtain ⟨hb, hbnd, he, hend⟩ := hser
  have hbf := fold_blocks_roundtrip c.blocks [] hb (fun p _ => rfl) hbnd
  have hef := fold_entities_roundtrip c.entities [] he (fun p _ => rfl) hend
  cases c with
  | mk cX cY wid id ver blocks entities md dirty =>
      simp only at hbf hef
      simp only [Chunk.toJSON, Chunk.fromJSON, Chunk.make, Chunk.markClean]
      rw [hbf, hef]
      simp

/-- C7 counterexample: an entity whose health was driven to `0` by
`takeDamage` is restored by `fromJSON(toJSON(...))` with health `100`
(`properties.health || 100` treats `0` as falsy), so the round trip does
not reproduce every field. -/
theorem serialization_roundtrip_counterexample :
    entityHealthZeroExample.health = 0 ∧
    (Entity.fromJSON entityHealthZeroExample.toJSON).health = 100 ∧
    Entity.fromJSON entityHealthZeroExample.toJSON ≠ entityHealthZeroExample := by
  have h0 : entityHealthZeroExample.health = 0 := by
    simp only [entityHealthZeroExample, Entity.takeDamage, Entity.make,
      EntityProps.empty, jsOrRat]
    norm_num
  have h100 : (Entity.fromJSON entityHealthZeroExample.toJSON).health = 100 := by
    simp only [Entity.fromJSON, Entity.toJSON, Entity.make, jsOrRat, h0]
    norm_num
  refine ⟨h0, h100, ?_⟩
  intro hcon
  rw [hcon, h0] at h100
  norm_num at h100

/-- C7 amended: the serialization round trip reproduces the serialized
fields, no more: for any Block built by the constructor
(`Block.WF`), `fromJSON(toJSON(b))` reproduces coordinates, type and
every declared property, losing only the unserialized raw-bag key
`properties.height`; for any constructor-built Entity whose health is
nonzero, the round trip reproduces every declared field and the `state`
sub-object (`active`, `velocity`, `acceleration`, `animationFrame`),
resetting only the unserialized `animationTime`; an entity with health
`0` is restored with health `100`.  A Chunk whose blocks and entities
satisfy the same conditions round-trips to the same chunk up to those
block/entity caveats, with `dirty` cleared by `markClean`. -/
theorem serialization_roundtrip_amended :
    (∀ b : Block, b.WF → Block.fromJSON b.toJSON = { b with propsHeight := none }) ∧
    (∀ e : Entity, e.WF → e.health ≠ 0 →
      Entity.fromJSON e.toJSON = { e with animationTime := 0 }) ∧
    (∀ c : Chunk, c.SerWF →
      Chunk.fromJSON c.toJSON =
        { c with
          blocks := c.blocks.map (fun p => (p.1, { p.2 with propsHeight := none })),
          entities := c.entities.map (fun p => (p.1, { p.2 with animationTime := 0 })),
          dirty := false }) :=
  ⟨block_roundtrip_aux, entity_roundtrip_aux, chunk_roundtrip_aux⟩

/-- Witness for `serialization_roundtrip_amended` on a concrete block,
entity and chunk. -/
theorem serialization_roundtrip_amended_witness :
    Block.fromJSON exampleBlock.toJSON = { exampleBlock with propsHeight := none } ∧
    Entity.fromJSON exampleEntity.toJSON = { exampleEntity with animationTime := 0 } ∧
    Chunk.fromJSON exampleChunk.toJSON =
      { exampleChunk with
        blocks := exampleChunk.blocks.map
          (fun p => (p.1, { p.2 with propsHeight := none })),
        entities := exampleChunk.entities.map
          (fun p => (p.1, { p.2 with animationTime := 0 })),
        dirty := false } :=
  ⟨serialization_roundtrip_amended.1 exampleBlock (by decide),
   serialization_roundtrip_amended.2.1 exampleEntity (by decide) (by decide),
   serialization_roundtrip_amended.2.2 exampleChunk (by decide)⟩

/-! ## C1 — placeBlock with z omitted -/

theorem highest_fold_ge_init (lx ly : Int) (l : List ((Int × Int × Int) × Block))
    (acc : Int) :
    acc ≤ l.foldl
      (fun highestZ p =>
        if p.1.1 = lx ∧ p.1.2.1 = ly ∧ p.1.2.2 > highestZ
        then p.1.2.2 else highestZ) acc := by
  induction l generalizing acc with
  | nil => exact le_refl acc
  | cons p rest ih =>
      rw [List.foldl_cons]
      refine le_trans ?_ (ih _)
      split
      · next h => exact le_of_lt h.2.2
      · exact le_refl acc

theorem highest_fold_ge_mem (lx ly z : Int) (b : Block)
    (l : List ((Int × Int × Int) × Block)) (acc : Int)
    (hmem : ((lx, ly, z), b) ∈ l) :
    z ≤ l.foldl
      (fun highestZ p =>
        if p.1.1 = lx ∧ p.1.2.1 = ly ∧ p.1.2.2 > highestZ
        then p.1.2.2 else highestZ) acc := by
  induction l generalizing acc with
  | nil => cases hmem
  | cons p rest ih =>
      rw [List.foldl_cons]
      rcases List.mem_cons.mp hmem with h | h
      · subst h
        refine le_trans ?_ (highest_fold_ge_init lx ly rest _)
        split
        · exact le_refl z
        · next hneg =>
            push_neg at hneg
            exact hneg rfl rfl
      · exact ih _ h

theorem getBlockAt_le_highest (w : World) (x y z : Int) (b : Block)
    (h : w.getBlockAt x y z = some b) : z ≤ w.getHighestBlockZ x y := by
  unfold World.getBlockAt at h
  unfold World.getHighestBlockZ
  cases hch : w.getChunkAt x y with
  | none => rw [hch] at h; cases h
  | some c =>
      rw [hch] at h
      exact highest_fold_ge_mem _ _ z b _ (-1) (jsGet_eq_some_mem h)

theorem placeBlock_occupied (w : World) (x y z : Int)
    (h : (w.getBlockAt x y z).isSome = true) :
    w.placeBlock x y z = Except.ok (w, none) := by
  unfold World.placeBlock
  rw [if_pos h]

theorem jsGet_singleton {α β : Type} [DecidableEq α] (k : α) (v : β) :
    jsGet [(k, v)] k = some v := by
  simp [jsGet]

theorem getChunkAtCreate_of_some (w : World) (x y : Int) (c : Chunk)
    (h : w.getChunkAt x y = some c) : w.getChunkAtCreate x y = (w, c) := by
  unfold World.getChunkAt at h
  unfold World.getChunkAtCreate
  dsimp only at h ⊢
  rw [h]

theorem getChunkAtCreate_of_none (w : World) (x y : Int)
    (h : w.getChunkAt x y = none) :
    w.getChunkAtCreate x y =
      ({ w with
         chunks := jsSet w.chunks
           (chunkIdFor w.worldId (Int.fdiv x chunkSIZE) (Int.fdiv y chunkSIZE))
           (Chunk.make (Int.fdiv x chunkSIZE) (Int.fdiv y chunkSIZE) w.worldId),
         activeChunks := jsSetAdd w.activeChunks
           (chunkIdFor w.worldId (Int.fdiv x chunkSIZE) (Int.fdiv y chunkSIZE)) },
       Chunk.make (Int.fdiv x chunkSIZE) (Int.fdiv y chunkSIZE) w.worldId) := by
  unfold World.getChunkAt at h
  unfold World.getChunkAtCreate
  dsimp only at h ⊢
  rw [h]

theorem setBlock_ok (c : Chunk) (x y z : Int) (b : Block)
    (h : c.metadata.static = false) :
    c.setBlock x y z (some b) true =
      Except.ok (({ c with
        blocks := jsSet c.blocks (x, y, z)
          { b with x := x, y := y, z := z } }).markDirty) := by
  unfold Chunk.setBlock
  rw [if_neg (by simp [h])]
  rfl

theorem placeBlock_base_core (w w' : World) (x y : Int) (c : Chunk)
    (hempty : w.getBlockAt x y 0 = none)
    (hcreate : w.getChunkAtCreate x y = (w', c))
    (hst : c.metadata.static = false)
    (hwid : w'.worldId = w.worldId)
    (hcid : c.id = chunkIdFor w.worldId (Int.fdiv x chunkSIZE) (Int.fdiv y chunkSIZE))
    (hkey : jsGet c.blocks ((c.worldToLocal x y).1, (c.worldToLocal x y).2, 0) = none)
    (hfold : c.blocks.foldl
      (fun highestZ p =>
        if p.1.1 = (c.worldToLocal x y).1 ∧ p.1.2.1 = (c.worldToLocal x y).2 ∧
            p.1.2.2 > highestZ
        then p.1.2.2 else highestZ) (-1) = -1) :
    ∃ stored : Block,
      (w.placeBlockDefaultZ x y).getBlockAt x y 0 = some stored ∧
      stored.z = 0 ∧
      (w.placeBlockDefaultZ x y).getHighestBlockZ x y = 0 := by
  set L1 := (c.worldToLocal x y).1 with hL1
  set L2 := (c.worldToLocal x y).2 with hL2
  set blk := Block.make x y 0 GameConfig.blockDefaultType
      { BlockProps.empty with color := some GameConfig.blockDefaultColor,
                              height := some GameConfig.blockDefaultHeight }
    with hblk
  set stored := { blk with x := L1, y := L2, z := 0 } with hstored
  set c2 := ({ c with blocks := jsSet c.blocks (L1, L2, 0) stored }).markDirty
    with hc2
  have hplace : w.placeBlockDefaultZ x y =
      { w' with chunks := jsSet w'.chunks c2.id c2 } := by
    rw [hc2, hstored, hblk, hL1, hL2]
    unfold World.placeBlockDefaultZ World.placeBlock World.setBlockAt
    rw [hempty]
    simp only [Option.isSome_none, Bool.false_eq_true, if_false]
    rw [hcreate]
    dsimp only
    rw [if_neg (show ¬((0 : Int) > 0) by omega)]
    rw [setBlock_ok c (c.worldToLocal x y).1 (c.worldToLocal x y).2 0 _ hst]
  have hc2id : c2.id =
      chunkIdFor w.worldId (Int.fdiv x chunkSIZE) (Int.fdiv y chunkSIZE) := hcid
  have hget2 : (w.placeBlockDefaultZ x y).getChunkAt x y = some c2 := by
    rw [hplace]
    unfold World.getChunkAt
    dsimp only
    rw [hwid, ← hc2id]
    exact jsGet_set_self _ _ _
  have hb2 : c2.blocks = c.blocks ++ [((L1, L2, 0), stored)] := by
    rw [hc2]
    show jsSet c.blocks (L1, L2, 0) stored = _
    exact jsSet_of_get_none _ hkey
  have hwtl : c2.worldToLocal x y = c.worldToLocal x y := rfl
  refine ⟨stored, ?_, by rw [hstored], ?_⟩
  · unfold World.getBlockAt
    rw [hget2]
    dsimp only
    unfold Chunk.getBlock
    rw [hwtl, ← hL1, ← hL2, hb2, jsGet_append _ _ _ hkey]
    exact jsGet_singleton _ _
  · unfold World.getHighestBlockZ
    rw [hget2]
    dsimp only
    rw [hwtl, ← hL1, ← hL2, hb2, List.foldl_append, hfold, List.foldl_cons,
      List.foldl_nil]
    dsimp only
    rw [if_pos ⟨rfl, rfl, by omega⟩]

theorem placeBlock_base (w : World) (x y : Int)
    (hid : w.IdInv) (hhigh : w.getHighestBlockZ x y = -1)
    (hstatic : (w.getChunkAt x y).all (fun c => !c.metadata.static) = true) :
    ∃ stored : Block,
      (w.placeBlockDefaultZ x y).getBlockAt x y 0 = some stored ∧
      stored.z = 0 ∧
      (w.placeBlockDefaultZ x y).getHighestBlockZ x y = 0 := by
  have hempty : w.getBlockAt x y 0 = none := by
    cases hgb : w.getBlockAt x y 0 with
    | none => rfl
    | some b =>
        have hle := getBlockAt_le_highest w x y 0 b hgb
        rw [hhigh] at hle
        omega
  cases hch : w.getChunkAt x y with
  | some c =>
      have hst : c.metadata.static = false := by
        rw [hch] at hstatic
        simpa using hstatic
      have hcid : c.id =
          chunkIdFor w.worldId (Int.fdiv x chunkSIZE) (Int.fdiv y chunkSIZE) := by
        have hmem : (chunkIdFor w.worldId (Int.fdiv x chunkSIZE)
            (Int.fdiv y chunkSIZE), c) ∈ w.chunks := by
          apply jsGet_eq_some_mem
          have h := hch
          unfold World.getChunkAt at h
          exact h
        exact hid _ hmem
      have hkey : jsGet c.blocks
          ((c.worldToLocal x y).1, (c.worldToLocal x y).2, 0) = none := by
        have h := hempty
        unfold World.getBlockAt at h
        rw [hch] at h
        exact h
      have hfold : c.blocks.foldl
          (fun highestZ p =>
            if p.1.1 = (c.worldToLocal x y).1 ∧ p.1.2.1 = (c.worldToLocal x y).2 ∧
                p.1.2.2 > highestZ
            then p.1.2.2 else highestZ) (-1) = -1 := by
        have h := hhigh
        unfold World.getHighestBlockZ at h
        rw [hch] at h
        exact h
      exact placeBlock_base_core w w x y c hempty
        (getChunkAtCreate_of_some w x y c hch) hst rfl hcid hkey hfold
  | none =>
      exact placeBlock_base_core w _ x y
        (Chunk.make (Int.fdiv x chunkSIZE) (Int.fdiv y chunkSIZE) w.worldId)
        hempty (getChunkAtCreate_of_none w x y hch) rfl rfl rfl rfl rfl

/-- C1 counterexample: starting from the freshly created world, two
calls of `placeBlock(5, 5)` with `z` omitted do not stack — the second
call is a no-op (the cell `(5, 5, 0)` is already occupied, because the
omitted `z` defaults to `0`, not to `highest + 1`), and
`getHighestBlockZ(5, 5)` stays `0` instead of the claimed `N - 1 = 1`. -/
theorem placeBlock_default_z_counterexample :
    (World.createWorld "default" 8 8).placeBlockIter 5 5 2 =
      (World.createWorld "default" 8 8).placeBlockIter 5 5 1 ∧
    ((World.createWorld "default" 8 8).placeBlockIter 5 5 2).getHighestBlockZ 5 5 = 0 ∧
    ¬(((World.createWorld "default" 8 8).placeBlockIter 5 5 2).getHighestBlockZ 5 5 =
        2 - 1) := by
  decide

/-- C1 amended: `placeBlock` on an occupied exact cell is a warned no-op
(no mutation, no event); and with the `z` argument omitted the block is
placed at layer `0` (the JavaScript default), not at `highest + 1` — so
N such calls at the same `(x, y)` starting from an empty column place a
single block at `z = 0`, and `getHighestBlockZ` is `0` (not `N - 1`) for
every `N ≥ 1`.  (Stacking at `highest + 1` is implemented by the
StateManager click path, which passes `z` explicitly.) -/
theorem placeBlock_default_z_amended :
    (∀ (w : World) (x y z : Int),
      (w.getBlockAt x y z).isSome = true →
      w.placeBlock x y z = Except.ok (w, none)) ∧
    (∀ (w : World) (x y : Int),
      w.IdInv → w.getHighestBlockZ x y = -1 →
      (w.getChunkAt x y).all (fun c => !c.metadata.static) = true →
      ∀ n : Nat, 1 ≤ n →
        (w.placeBlockIter x y n).getHighestBlockZ x y = 0 ∧
        ((w.placeBlockIter x y n).getBlockAt x y 0).map Block.z = some 0) := by
  refine ⟨placeBlock_occupied, ?_⟩
  intro w x y hid hhigh hstatic n hn
  obtain ⟨stored, hget1, hz, hhigh1⟩ := placeBlock_base w x y hid hhigh hstatic
  set W1 := w.placeBlockDefaultZ x y with hW1
  have hnoop : W1.placeBlockDefaultZ x y = W1 := by
    unfold World.placeBlockDefaultZ
    rw [placeBlock_occupied W1 x y 0 (by rw [hget1]; rfl)]
  have hiter : ∀ m : Nat, w.placeBlockIter x y (m + 1) = W1 := by
    intro m
    induction m with
    | zero =>
        show w.placeBlockDefaultZ x y = W1
        rw [hW1]
    | succ k ihk =>
        show (w.placeBlockIter x y (k + 1)).placeBlockDefaultZ x y = W1
        rw [ihk, hnoop]
  obtain ⟨m, rfl⟩ : ∃ m, n = m + 1 := ⟨n - 1, by omega⟩
  rw [hiter m]
  refine ⟨hhigh1, ?_⟩
  rw [hget1]
  simp [hz]

/-- Witness for `placeBlock_default_z_amended`: three z-omitted
placements at `(5, 5)` on the initial world leave the column at height
`0` with the single block at `z = 0`, and a placement into the occupied
cell `(5, 5, 0)` is a no-op. -/
theorem placeBlock_default_z_amended_witness :
    ((Sys.init.world.placeBlockIter 5 5 3).getHighestBlockZ 5 5 = 0 ∧
      ((Sys.init.world.placeBlockIter 5 5 3).getBlockAt 5 5 0).map Block.z = some 0) ∧
    (Sys.init.world.placeBlockIter 5 5 1).placeBlock 5 5 0 =
      Except.ok (Sys.init.world.placeBlockIter 5 5 1, none) :=
  ⟨placeBlock_default_z_amended.2 Sys.init.world 5 5 (by decide) (by decide)
      (by decide) 3 (by omega),
   placeBlock_default_z_amended.1 (Sys.init.world.placeBlockIter 5 5 1) 5 5 0
      (by decide)⟩
